import Mathlib

/-!
Verification of the gt8004-sdk request-logging SDK.

The development embeds, in Lean:
* the protocol-aware tool-name extraction functions of
  `src/gt8004/middleware/fastapi.py` (`_extract_mcp_tool_name`,
  `_extract_a2a_tool_name`, `_extract_http_tool_name`, and the
  protocol dispatch and body-capture logic of `GT8004Middleware.dispatch`);
* the batching transport (`BatchTransport`) with retry and circuit-breaker
  logic, modelled from the specification (its implementation file is not
  part of the sources; only its tests are).

Python strings that are split and stripped are embedded as `List Char`;
raw byte strings as `List Nat`.  The JSON parser (`json.loads`) is an
external collaborator and is abstracted as a function
`String → Option JsonValue` (`none` = decode failure); UTF-8 decoding with
`errors="ignore"` (which never fails) is abstracted as
`List Nat → String`.
-/

/-- Result of `json.loads` on a successful parse: a Python value built from
JSON.  Numbers are embedded as integers (no claim depends on float
arithmetic); `null` also stands for Python `None`. -/
inductive JsonValue where
  | null
  | bool (b : Bool)
  | num (n : Int)
  | str (s : String)
  | arr (elems : List JsonValue)
  | obj (fields : List (String × JsonValue))

/-- Exception types that the operations inside the extractors' `try` blocks
can raise: `json.loads` raises `json.JSONDecodeError`; attribute access
(`.get` on a non-dict) raises `AttributeError`; `TypeError` is listed in the
source's `except` clause as well. -/
inductive PyErr where
  | jsonDecodeError
  | typeError
  | attributeError
deriving DecidableEq

/-- The exception tuple `(json.JSONDecodeError, TypeError, AttributeError)`
of the `except` clauses in `_extract_mcp_tool_name` and
`_extract_a2a_tool_name` (fastapi.py lines 28 and 41). -/
def caughtByExtractors : PyErr → Bool
  | .jsonDecodeError => true
  | .typeError => true
  | .attributeError => true

/-- Python truthiness of a JSON-derived value (`if skill:`): `None`, `False`,
`0`, `""`, `[]` and `{}` are falsy. -/
def truthy : JsonValue → Bool
  | .null => false
  | .bool b => b
  | .num n => n != 0
  | .str s => s != ""
  | .arr elems => !elems.isEmpty
  | .obj fields => !fields.isEmpty

/-- First-match association-list lookup, the embedding of `dict[key]`
presence and value for a parsed JSON object. -/
def lookupField : List (String × JsonValue) → String → Option JsonValue
  | [], _ => none
  | (k, v) :: rest, key => if k = key then some v else lookupField rest key

/-- Python `data.get(key, default)`: returns the stored value or the default
on a dict, raises `AttributeError` on any non-dict value. -/
def pyGet (v : JsonValue) (key : String) (default : JsonValue) :
    Except PyErr JsonValue :=
  match v with
  | .obj fields => .ok ((lookupField fields key).getD default)
  | _ => .error .attributeError

/-- The `try` block of `_extract_mcp_tool_name` (fastapi.py lines 24-27):
`data = json.loads(body); if data.get("method") == "tools/call": return
data.get("params", {}).get("name")`; falling out of the `if` yields `None`
(the function's final `return None`). -/
def mcpTryBlock (parse : String → Option JsonValue) (s : String) :
    Except PyErr JsonValue :=
  match parse s with
  | none => .error .jsonDecodeError
  | some data =>
    match pyGet data "method" .null with
    | .error e => .error e
    | .ok m =>
      match m with
      | .str mname =>
        if mname = "tools/call" then
          match pyGet data "params" (.obj []) with
          | .error e => .error e
          | .ok params => pyGet params "name" .null
        else .ok .null
      | _ => .ok .null

/-- `_extract_mcp_tool_name` (fastapi.py lines 20-30).  `if not body:`
short-circuits `None` and the empty string; every exception of the `try`
block is caught and degrades to `None`. -/
def extract_mcp_tool_name (parse : String → Option JsonValue)
    (body : Option String) : JsonValue :=
  match body with
  | none => .null
  | some s =>
    if s = "" then .null
    else
      match mcpTryBlock parse s with
      | .ok v => v
      | .error _ => .null

/-- Python `path.rstrip("/")`: drop every trailing slash. -/
def rstripSlash (l : List Char) : List Char :=
  (l.reverse.dropWhile (fun c => c == '/')).reverse

/-- Python `s.split("/")` for a one-character separator: always returns a
non-empty list of segments; splitting the empty string yields `[""]`. -/
def splitSlash : List Char → List (List Char)
  | [] => [[]]
  | c :: rest =>
    match splitSlash rest with
    | [] => [[]]
    | seg :: segs => if c == '/' then [] :: seg :: segs else (c :: seg) :: segs

/-- `_extract_http_tool_name` (fastapi.py lines 48-51):
`segments = path.rstrip("/").split("/"); return segments[-1] if segments
else None`. -/
def extract_http_tool_name (path : List Char) : Option (List Char) :=
  (splitSlash (rstripSlash path)).getLast?

/-- The path fallback shared by the A2A extractor (fastapi.py lines 44-45)
and the HTTP branch of the middleware dispatch, as the Python value the
function returns (`None` when no segment exists). -/
def pathFallback (path : List Char) : JsonValue :=
  match extract_http_tool_name path with
  | some seg => .str (String.mk seg)
  | none => .null

/-- The `try` block of `_extract_a2a_tool_name` (fastapi.py lines 36-40):
`data = json.loads(body); skill = data.get("skill_id"); if skill: return
skill`; `some v` means the block returned `v`, `none` means it fell through
to the path fallback. -/
def a2aTryBlock (parse : String → Option JsonValue) (s : String) :
    Except PyErr (Option JsonValue) :=
  match parse s with
  | none => .error .jsonDecodeError
  | some data =>
    match pyGet data "skill_id" .null with
    | .error e => .error e
    | .ok skill => .ok (if truthy skill then some skill else none)

/-- `_extract_a2a_tool_name` (fastapi.py lines 33-45): the `try` block runs
only when `body` is truthy; any caught exception or fall-through continues
to the path fallback. -/
def extract_a2a_tool_name (parse : String → Option JsonValue)
    (body : Option String) (path : List Char) : JsonValue :=
  let attempted : Option JsonValue :=
    match body with
    | none => none
    | some s =>
      if s = "" then none
      else
        match a2aTryBlock parse s with
        | .ok r => r
        | .error _ => none
  match attempted with
  | some v => v
  | none => pathFallback path

/-- Protocol dispatch of `GT8004Middleware.dispatch`
(fastapi.py lines 135-140). -/
def dispatchToolName (parse : String → Option JsonValue)
    (protocol : Option String) (body : Option String) (path : List Char) :
    JsonValue :=
  if protocol = some "mcp" then extract_mcp_tool_name parse body
  else if protocol = some "a2a" then extract_a2a_tool_name parse body path
  else pathFallback path

/-- Specification-side counterpart of the MCP extractor, written from the
spec's words: return the value of `params.name` exactly when the body parses
as a JSON mapping whose `method` field equals the literal `"tools/call"` and
`params.name` is present; in every other case return null. -/
def mcpSpecFn (parse : String → Option JsonValue) (body : Option String) :
    JsonValue :=
  match body with
  | none => .null
  | some s =>
    match parse s with
    | some (.obj fields) =>
      match lookupField fields "method" with
      | some (.str m) =>
        if m = "tools/call" then
          match lookupField fields "params" with
          | some (.obj pf) => (lookupField pf "name").getD .null
          | _ => .null
        else .null
      | _ => .null
    | _ => .null

/-- Specification-side counterpart of the A2A extractor with the amended
condition: return the `skill_id` value whenever the body parses as a JSON
mapping containing a truthy `skill_id`; in every other case fall back to the
HTTP path extraction of the path. -/
def a2aTruthySpecFn (parse : String → Option JsonValue)
    (body : Option String) (path : List Char) : JsonValue :=
  match body with
  | none => pathFallback path
  | some s =>
    match parse s with
    | some (.obj fields) =>
      match lookupField fields "skill_id" with
      | some v => if truthy v then v else pathFallback path
      | none => pathFallback path
    | _ => pathFallback path

/-- Specification-side value for the HTTP extractor: the last non-empty
segment of the path after stripping trailing slashes and splitting on `/`,
and the empty segment when no non-empty segment exists (in particular for
the root path). -/
def lastNonEmptySegment (p : List Char) : List Char :=
  (((splitSlash (rstripSlash p)).filter (fun s => !s.isEmpty)).getLast?).getD []

/-- Exception-transparent form of `_extract_mcp_tool_name`: the `except`
clause catches only the exception types it lists and re-raises anything
else, so provable totality of this function verifies that the clause covers
everything the `try` block can raise. -/
def extract_mcp_run (parse : String → Option JsonValue)
    (body : Option String) : Except PyErr JsonValue :=
  match body with
  | none => .ok .null
  | some s =>
    if s = "" then .ok .null
    else
      match mcpTryBlock parse s with
      | .ok v => .ok v
      | .error e => if caughtByExtractors e then .ok .null else .error e

/-- Exception-transparent form of `_extract_a2a_tool_name`. -/
def extract_a2a_run (parse : String → Option JsonValue)
    (body : Option String) (path : List Char) : Except PyErr JsonValue :=
  match body with
  | none => .ok (pathFallback path)
  | some s =>
    if s = "" then .ok (pathFallback path)
    else
      match a2aTryBlock parse s with
      | .ok (some v) => .ok v
      | .ok none => .ok (pathFallback path)
      | .error e =>
        if caughtByExtractors e then .ok (pathFallback path) else .error e

/-- Exception-transparent form of the protocol dispatch (the HTTP extractor
performs no operation that can raise). -/
def dispatchToolNameRun (parse : String → Option JsonValue)
    (protocol : Option String) (body : Option String) (path : List Char) :
    Except PyErr JsonValue :=
  if protocol = some "mcp" then extract_mcp_run parse body
  else if protocol = some "a2a" then extract_a2a_run parse body path
  else .ok (pathFallback path)

/-- Outcome of one network send attempt: any 2xx response is a success,
a transport error or non-2xx response is a failure. -/
inductive SendResult where
  | success
  | failure
deriving DecidableEq

/-- Modelled from the spec: the mutable state of `BatchTransport`
(`gt8004/transport.py` is not among the sources; only its tests are).
Fields per spec §3: FIFO buffer, `batch_size`, `consecutive_failures`, and
`circuit_breaker_until` (a timestamp, or not set). -/
structure TransportState (α : Type) where
  buffer : List α
  batch_size : Nat
  consecutive_failures : Nat
  circuit_breaker_until : Option Nat
deriving DecidableEq

/-- Modelled from the spec: the fixed circuit-breaker cooldown
("fixed cooldown, e.g. 60s", spec §4.2). -/
def backoff_seconds : Nat := 60

/-- Result of one `flush` or `add` call: the new transport state and the
list of batches for which a network send was attempted during the call. -/
structure FlushOut (α : Type) where
  state : TransportState α
  sent : List (List α)
deriving DecidableEq

/-- Modelled from the spec: the breaker is open when the current time is
strictly before `circuit_breaker_until`. -/
def breakerOpen (s : TransportState α) (now : Nat) : Bool :=
  match s.circuit_breaker_until with
  | some t => now < t
  | none => false

/-- Modelled from the spec (§4.2 `flush()`): no-op if the buffer is empty;
no-op if the breaker is open; otherwise snapshot and clear the buffer and
attempt to send the batch exactly once.  `addedDuring` stands for the
entries other callers append between the snapshot and the completion of the
send.  On success the counter resets to 0; on failure the counter increments
by 1, the failed entries are prepended back in front of the newly added
ones, and when the counter reaches 5 the breaker opens until
`now + backoff_seconds`. -/
def flush (now : Nat) (send : List α → SendResult) (addedDuring : List α)
    (s : TransportState α) : FlushOut α :=
  if s.buffer.isEmpty then ⟨s, []⟩
  else if breakerOpen s now then ⟨s, []⟩
  else
    let batch := s.buffer
    match send batch with
    | .success =>
      ⟨{ s with buffer := addedDuring, consecutive_failures := 0 }, [batch]⟩
    | .failure =>
      let cf := s.consecutive_failures + 1
      ⟨{ s with
          buffer := batch ++ addedDuring,
          consecutive_failures := cf,
          circuit_breaker_until :=
            if 5 ≤ cf then some (now + backoff_seconds)
            else s.circuit_breaker_until }, [batch]⟩

/-- Modelled from the spec (§4.2 `add(entry)`): append the entry to the
buffer tail; when the buffer length reaches `batch_size`, synchronously
trigger `flush`. -/
def add (now : Nat) (send : List α → SendResult) (s : TransportState α)
    (e : α) : FlushOut α :=
  let s1 := { s with buffer := s.buffer ++ [e] }
  if s.batch_size ≤ s1.buffer.length then flush now send [] s1 else ⟨s1, []⟩

/-- A sequence of `add` calls, collecting every batch sent along the way. -/
def addAll (now : Nat) (send : List α → SendResult) (s : TransportState α) :
    List α → TransportState α × List (List α)
  | [] => (s, [])
  | e :: rest =>
    let out := add now send s e
    let tail := addAll now send out.state rest
    (tail.1, out.sent ++ tail.2)

/-- Modelled from the spec: a freshly constructed transport (empty buffer,
zero failures, breaker not set; construction rejects `batch_size ≤ 0`). -/
def initTransport (α : Type) (batch_size : Nat) : TransportState α :=
  ⟨[], batch_size, 0, none⟩

/-- `_BODY_LIMIT` (fastapi.py line 17): 16 KB. -/
def _BODY_LIMIT : Nat := 16384

/-- The request methods for which `GT8004Middleware.dispatch` reads the
request body (fastapi.py line 93). -/
def bodyCaptureMethods : List String := ["POST", "PUT", "PATCH"]

/-- Request-body capture of `GT8004Middleware.dispatch`
(fastapi.py lines 90-100): only for POST/PUT/PATCH; `await request.body()`
may raise (modelled by `Except.error`), in which case both fields keep their
initial values; the size records the full byte length, and the decoded body
is kept only when the size is within `_BODY_LIMIT`. -/
def captureRequestBody (decode : List Nat → String) (method : String)
    (bodyResult : Except Unit (List Nat)) : Option String × Nat :=
  if method ∈ bodyCaptureMethods then
    match bodyResult with
    | .error _ => (none, 0)
    | .ok bytes =>
      if bytes.length ≤ _BODY_LIMIT then (some (decode bytes), bytes.length)
      else (none, bytes.length)
  else (none, 0)

/-- Response-body capture of `GT8004Middleware.dispatch`
(fastapi.py lines 105-126): join the streamed chunks; a failure while
iterating (modelled by `Except.error`) leaves both fields at their initial
values; the size records the full byte length, and the decoded body is kept
only when the size is within `_BODY_LIMIT`. -/
def captureResponseBody (decode : List Nat → String)
    (chunksResult : Except Unit (List (List Nat))) : Option String × Nat :=
  match chunksResult with
  | .error _ => (none, 0)
  | .ok chunks =>
    let raw := chunks.flatten
    if raw.length ≤ _BODY_LIMIT then (some (decode raw), raw.length)
    else (none, raw.length)

/-- The fields of the log entry built by `GT8004Middleware.dispatch` that
the body-capture and tool-name-extraction claims are about. -/
structure DispatchCapture where
  request_body : Option String
  request_body_size : Nat
  response_body : Option String
  response_body_size : Nat
  tool_name : JsonValue

/-- `GT8004Middleware.dispatch` (fastapi.py lines 86-168), restricted to the
body-capture and tool-name fields of the produced log entry: the captured
request body is the one handed to the protocol extractors. -/
def dispatchLogEntry (parse : String → Option JsonValue)
    (decode : List Nat → String) (protocol : Option String) (method : String)
    (path : List Char) (bodyResult : Except Unit (List Nat))
    (chunksResult : Except Unit (List (List Nat))) : DispatchCapture :=
  let rb := captureRequestBody decode method bodyResult
  let sb := captureResponseBody decode chunksResult
  { request_body := rb.1
    request_body_size := rb.2
    response_body := sb.1
    response_body_size := sb.2
    tool_name := dispatchToolName parse protocol rb.1 path }

/-- A decode function for concrete witnesses. -/
def decodeConst : List Nat → String := fun _ => ""

/-- A parse function for concrete witnesses: every body fails to parse. -/
def parseNone : String → Option JsonValue := fun _ => none

/-- Concrete parse function for the C5 witness: `"N"` parses to the empty
mapping, everything else (in particular `""`) fails to parse. -/
def parseW5 : String → Option JsonValue :=
  fun s => if s = "N" then some (.obj []) else none

/-- Concrete parse function for the C6 counterexample and witness: `"B"`
parses to a mapping whose `skill_id` is the empty string (non-null but
falsy); everything else fails to parse. -/
def cexParseA2A : String → Option JsonValue :=
  fun s => if s = "B" then some (.obj [("skill_id", .str "")]) else none

/-- Concrete parse function for the C8 counterexample: `"M"` parses to a
`tools/call` request whose `params.name` is the number 42. -/
def cexParseMcp : String → Option JsonValue :=
  fun s =>
    if s = "M" then
      some (.obj [("method", .str "tools/call"), ("params", .obj [("name", .num 42)])])
    else none

/-- Discriminator used to state that a returned value is neither a string
nor null. -/
def isStrOrNull : JsonValue → Bool
  | .null => true
  | .str _ => true
  | _ => false

/-- A send oracle that always succeeds. -/
def sendAlwaysOk : List Nat → SendResult := fun _ => .success

/-- A send oracle that always fails. -/
def sendAlwaysFail : List Nat → SendResult := fun _ => .failure

theorem splitSlash_ne_nil (l : List Char) : splitSlash l ≠ [] := by
  induction l with
  | nil => simp [splitSlash]
  | cons c rest ih =>
    unfold splitSlash
    cases h : splitSlash rest with
    | nil => exact absurd h ih
    | cons seg segs =>
      by_cases hc : (c == '/') = true
      · simp [hc]
      · simp [hc]

theorem getLast?_cons_of_ne {α : Type} (a : α) (l : List α) (h : l ≠ []) :
    (a :: l).getLast? = l.getLast? := by
  cases l with
  | nil => exact absurd rfl h
  | cons b t => exact List.getLast?_cons_cons

theorem rstripSlash_append_slash (p : List Char) :
    rstripSlash (p ++ ['/']) = rstripSlash p := by
  simp [rstripSlash, List.reverse_append, List.dropWhile_cons]

theorem head?_dropWhile_not (p : Char → Bool) :
    ∀ (l : List Char) (c : Char), (l.dropWhile p).head? = some c → p c = false := by
  intro l
  induction l with
  | nil => intro c h; simp [List.dropWhile] at h
  | cons a t ih =>
    intro c h
    rw [List.dropWhile_cons] at h
    by_cases ha : p a = true
    · rw [if_pos ha] at h
      exact ih c h
    · rw [if_neg ha] at h
      simp at h
      subst h
      simpa using ha

theorem rstripSlash_getLast?_ne_slash (p : List Char) :
    ∀ c, (rstripSlash p).getLast? = some c → c ≠ '/' := by
  intro c h
  rw [rstripSlash, List.getLast?_reverse] at h
  have hb := head?_dropWhile_not (fun x => x == '/') p.reverse c h
  simpa using hb

theorem splitSlash_getLast?_ne_nil :
    ∀ (l : List Char), l ≠ [] → (∀ c, l.getLast? = some c → c ≠ '/') →
    ∃ s, (splitSlash l).getLast? = some s ∧ s ≠ [] := by
  intro l
  induction l with
  | nil => intro h _; exact absurd rfl h
  | cons c rest ih =>
    intro _ hlast
    cases rest with
    | nil =>
      have hc : c ≠ '/' := hlast c rfl
      have hcb : (c == '/') = false := by simpa using hc
      refine ⟨[c], ?_, by simp⟩
      simp [splitSlash, hcb]
    | cons r rs =>
      have hrest : (r :: rs) ≠ [] := by simp
      have hlast2 : ∀ d, (r :: rs).getLast? = some d → d ≠ '/' := by
        intro d hd
        exact hlast d (by rw [getLast?_cons_of_ne c (r :: rs) hrest]; exact hd)
      obtain ⟨s, hs, hsne⟩ := ih hrest hlast2
      unfold splitSlash
      cases hsp : splitSlash (r :: rs) with
      | nil => exact absurd hsp (splitSlash_ne_nil (r :: rs))
      | cons seg segs =>
        rw [hsp] at hs
        cases segs with
        | nil =>
          have hseg : seg = s := by simpa using hs
          by_cases hcb : (c == '/') = true
          · refine ⟨s, ?_, hsne⟩
            simp [hcb, hseg]
          · have hcb2 : (c == '/') = false := by simpa using hcb
            refine ⟨c :: seg, ?_, by simp⟩
            simp [hcb2]
        | cons g gs =>
          rw [List.getLast?_cons_cons] at hs
          refine ⟨s, ?_, hsne⟩
          by_cases hcb : (c == '/') = true
          · simpa [hcb, List.getLast?_cons_cons] using hs
          · have hcb2 : (c == '/') = false := by simpa using hcb
            simpa [hcb2, List.getLast?_cons_cons] using hs

theorem filter_getLast?_of_ne_nil :
    ∀ (L : List (List Char)) (s : List Char), L.getLast? = some s → s ≠ [] →
    (L.filter (fun x => !x.isEmpty)).getLast? = some s := by
  intro L
  induction L with
  | nil => intro s h _; simp at h
  | cons x t ih =>
    intro s h hs
    cases t with
    | nil =>
      have hx : x = s := by simpa using h
      subst hx
      have hne : x.isEmpty = false := by
        cases x with
        | nil => exact absurd rfl hs
        | cons _ _ => rfl
      simp [List.filter, hne]
    | cons y u =>
      rw [List.getLast?_cons_cons] at h
      have hf := ih s h hs
      have hfne : (List.filter (fun x => !x.isEmpty) (y :: u)) ≠ [] := by
        intro he
        rw [he] at hf
        simp at hf
      rw [List.filter_cons]
      by_cases hx : (!x.isEmpty) = true
      · rw [if_pos hx, getLast?_cons_of_ne x _ hfne]
        exact hf
      · rw [if_neg hx]
        exact hf

theorem extract_http_eq_lastNonEmptySegment (p : List Char) :
    extract_http_tool_name p = some (lastNonEmptySegment p) := by
  unfold extract_http_tool_name lastNonEmptySegment
  by_cases hr : rstripSlash p = []
  · rw [hr]
    rfl
  · obtain ⟨s, hs, hsne⟩ :=
      splitSlash_getLast?_ne_nil (rstripSlash p) hr (rstripSlash_getLast?_ne_slash p)
    rw [hs, filter_getLast?_of_ne_nil _ s hs hsne]
    rfl

theorem extract_http_trailing_slash (p : List Char) :
    extract_http_tool_name (p ++ ['/']) = extract_http_tool_name p := by
  unfold extract_http_tool_name
  rw [rstripSlash_append_slash]

/-- Claim C7: for every path `p`, the HTTP extractor is invariant under
appending a trailing slash, returns the last non-empty segment of `p` after
stripping trailing slashes and splitting on `/` (the empty segment when no
non-empty segment exists), and returns the empty string for the root
path `/`. -/
theorem http_extractor_properties (p : List Char) :
    extract_http_tool_name (p ++ ['/']) = extract_http_tool_name p ∧
    extract_http_tool_name p = some (lastNonEmptySegment p) ∧
    extract_http_tool_name ['/'] = some [] :=
  ⟨extract_http_trailing_slash p, extract_http_eq_lastNonEmptySegment p, rfl⟩

/-- Claim C5: the MCP extractor returns the value of `params.name` exactly
when the body parses as a JSON mapping whose `method` field equals the
literal `"tools/call"` and `params.name` is present; in every other case
(a different method, absent `params.name`, a non-mapping JSON value, or a
body that is not valid JSON) it returns null.  The hypothesis records the
`json.loads` contract that the empty string is not valid JSON. -/
theorem mcp_extractor_matches_spec (parse : String → Option JsonValue)
    (hE : parse "" = none) (body : Option String) :
    extract_mcp_tool_name parse body = mcpSpecFn parse body := by
  cases body with
  | none => rfl
  | some s =>
    by_cases hs : s = ""
    · subst hs
      simp [extract_mcp_tool_name, mcpSpecFn, hE]
    · simp only [extract_mcp_tool_name, mcpSpecFn, if_neg hs]
      cases hp : parse s with
      | none => simp [mcpTryBlock, hp]
      | some data =>
        cases data with
        | null => simp [mcpTryBlock, hp, pyGet]
        | bool b => simp [mcpTryBlock, hp, pyGet]
        | num n => simp [mcpTryBlock, hp, pyGet]
        | str t => simp [mcpTryBlock, hp, pyGet]
        | arr elems => simp [mcpTryBlock, hp, pyGet]
        | obj fields =>
          simp only [mcpTryBlock, hp, pyGet]
          cases hm : lookupField fields "method" with
          | none => simp
          | some m =>
            cases m with
            | str mname =>
              by_cases hmn : mname = "tools/call"
              · simp only [Option.getD_some, if_pos hmn]
                cases hpar : lookupField fields "params" with
                | none => simp [pyGet, lookupField]
                | some pv =>
                  cases pv with
                  | obj pf => simp [pyGet]
                  | null => simp [pyGet]
                  | bool b => simp [pyGet]
                  | num n => simp [pyGet]
                  | str t => simp [pyGet]
                  | arr elems => simp [pyGet]
              · simp [if_neg hmn]
            | null => simp
            | bool b => simp
            | num n => simp
            | arr elems => simp
            | obj f2 => simp

/-- Claim C5 witness: concrete instantiation of the MCP refinement theorem
at a parse function satisfying the empty-body contract. -/
theorem mcp_extractor_matches_spec_witness :
    parseW5 "" = none ∧
    extract_mcp_tool_name parseW5 (some "N") = mcpSpecFn parseW5 (some "N") :=
  ⟨rfl, mcp_extractor_matches_spec parseW5 rfl (some "N")⟩

/-- Claim C6 counterexample: `"B"` parses as a JSON mapping whose
`skill_id` value is the empty string — non-null — yet the extractor falls
back to the last path segment `"run"` instead of returning the skill value,
because the source tests truthiness (`if skill:`), not non-nullness. -/
theorem a2a_nonnull_skill_counterexample :
    cexParseA2A "B" = some (.obj [("skill_id", .str "")]) ∧
    JsonValue.str "" ≠ JsonValue.null ∧
    extract_a2a_tool_name cexParseA2A (some "B") "/a2a/run".toList = .str "run" ∧
    JsonValue.str "run" ≠ JsonValue.str "" := by
  refine ⟨rfl, by simp, rfl, by simp⟩

/-- Claim C6 (amended): the A2A extractor returns the `skill_id` value
whenever the body parses as a JSON mapping containing a truthy `skill_id`
(non-null and not the empty string, zero, false, or an empty container);
in every other case it returns the HTTP path extraction of the path as
fallback.  The hypothesis records the `json.loads` contract that the empty
string is not valid JSON. -/
theorem a2a_extractor_matches_truthy_spec (parse : String → Option JsonValue)
    (hE : parse "" = none) (body : Option String) (path : List Char) :
    extract_a2a_tool_name parse body path = a2aTruthySpecFn parse body path := by
  cases body with
  | none => rfl
  | some s =>
    by_cases hs : s = ""
    · subst hs
      simp [extract_a2a_tool_name, a2aTruthySpecFn, hE]
    · simp only [extract_a2a_tool_name, a2aTruthySpecFn, if_neg hs]
      cases hp : parse s with
      | none => simp [a2aTryBlock, hp]
      | some data =>
        cases data with
        | null => simp [a2aTryBlock, hp, pyGet]
        | bool b => simp [a2aTryBlock, hp, pyGet]
        | num n => simp [a2aTryBlock, hp, pyGet]
        | str t => simp [a2aTryBlock, hp, pyGet]
        | arr elems => simp [a2aTryBlock, hp, pyGet]
        | obj fields =>
          simp only [a2aTryBlock, hp, pyGet]
          cases hsk : lookupField fields "skill_id" with
          | none => simp [truthy]
          | some v =>
            by_cases hv : truthy v = true
            · simp [hv]
            · simp only [Option.getD_some]
              rw [Bool.not_eq_true] at hv
              simp [hv]

/-- Claim C6 witness: concrete instantiation of the amended A2A refinement
theorem. -/
theorem a2a_extractor_matches_truthy_spec_witness :
    cexParseA2A "" = none ∧
    extract_a2a_tool_name cexParseA2A (some "B") "/a2a/run".toList =
      a2aTruthySpecFn cexParseA2A (some "B") "/a2a/run".toList :=
  ⟨rfl, a2a_extractor_matches_truthy_spec cexParseA2A rfl (some "B") "/a2a/run".toList⟩

/-- Claim C8 counterexample: with a `tools/call` body whose `params.name`
is the number 42, the MCP extractor returns the number 42, which is
neither a string nor null — so the extractors do not always return an
optional string. -/
theorem mcp_nonstring_return_counterexample :
    extract_mcp_tool_name cexParseMcp (some "M") = .num 42 ∧
    isStrOrNull (extract_mcp_tool_name cexParseMcp (some "M")) = false :=
  ⟨rfl, rfl⟩

/-- Claim C8 (amended): the tool-name extraction functions are pure and
total: for every protocol value, optional string body, and path, the
protocol dispatch terminates normally returning a value — the extracted
JSON value, which need not be a string — and never raises: every exception
the `try` blocks can produce is caught, and malformed input degrades to a
null result instead of a failure. -/
theorem extractors_never_raise (parse : String → Option JsonValue)
    (protocol : Option String) (body : Option String) (path : List Char) :
    dispatchToolNameRun parse protocol body path =
      .ok (dispatchToolName parse protocol body path) := by
  unfold dispatchToolNameRun dispatchToolName
  by_cases hm : protocol = some "mcp"
  · simp only [if_pos hm]
    cases body with
    | none => rfl
    | some s =>
      by_cases hs : s = ""
      · subst hs
        rfl
      · simp only [extract_mcp_run, extract_mcp_tool_name, if_neg hs]
        cases h : mcpTryBlock parse s with
        | ok v => rfl
        | error e => cases e <;> rfl
  · by_cases ha : protocol = some "a2a"
    · simp only [if_neg hm, if_pos ha]
      cases body with
      | none => rfl
      | some s =>
        by_cases hs : s = ""
        · subst hs
          rfl
        · simp only [extract_a2a_run, extract_a2a_tool_name, if_neg hs]
          cases h : a2aTryBlock parse s with
          | ok r => cases r <;> rfl
          | error e => cases e <;> rfl
    · simp only [if_neg hm, if_neg ha]

theorem addAll_below_threshold {α : Type} (now : Nat) (send : List α → SendResult) :
    ∀ (entries : List α) (s : TransportState α),
      s.buffer.length + entries.length < s.batch_size →
      addAll now send s entries = ({ s with buffer := s.buffer ++ entries }, []) := by
  intro entries
  induction entries with
  | nil =>
    intro s h
    simp [addAll]
  | cons e rest ih =>
    intro s h
    simp only [List.length_cons] at h
    have hlt : ¬ (s.batch_size ≤ (s.buffer ++ [e]).length) := by
      simp only [List.length_append, List.length_cons, List.length_nil]
      omega
    have ihs := ih { s with buffer := s.buffer ++ [e] }
      (by simp only [List.length_append, List.length_cons, List.length_nil]; omega)
    simp only [addAll, add, hlt, if_false, ihs]
    simp

theorem addAll_hits_threshold {α : Type} (now : Nat) (send : List α → SendResult) :
    ∀ (entries : List α) (s : TransportState α),
      entries ≠ [] →
      s.circuit_breaker_until = none →
      s.buffer.length + entries.length = s.batch_size →
      send (s.buffer ++ entries) = .success →
      addAll now send s entries =
        ({ s with buffer := [], consecutive_failures := 0 }, [s.buffer ++ entries]) := by
  intro entries
  induction entries with
  | nil => intro s h; exact absurd rfl h
  | cons e rest ih =>
    intro s _ hcb hlen hsend
    cases rest with
    | nil =>
      simp only [List.length_cons, List.length_nil] at hlen
      have hcond : s.batch_size ≤ (s.buffer ++ [e]).length := by
        simp only [List.length_append, List.length_cons, List.length_nil]
        omega
      have hie : (s.buffer ++ [e]).isEmpty = false := by
        simp [List.isEmpty_iff]
      have hopen : breakerOpen { s with buffer := s.buffer ++ [e] } now = false := by
        simp [breakerOpen, hcb]
      simp only [addAll, add, hcond, if_true]
      simp [flush, hie, hopen, hsend]
    | cons e2 rest2 =>
      simp only [List.length_cons] at hlen
      have hlt : ¬ (s.batch_size ≤ (s.buffer ++ [e]).length) := by
        simp only [List.length_append, List.length_cons, List.length_nil]
        omega
      have hlt2 : ¬ (s.batch_size ≤ s.buffer.length + 1) := by omega
      have hadd : add now send s e = ⟨{ s with buffer := s.buffer ++ [e] }, []⟩ := by
        simp [add, hlt2]
      have ihs := ih { s with buffer := s.buffer ++ [e] } (by simp)
        (by simp [hcb])
        (by simp only [List.length_append, List.length_cons, List.length_nil]; omega)
        (by simpa [List.append_assoc] using hsend)
      have step : addAll now send s (e :: e2 :: rest2) =
          ((addAll now send (add now send s e).state (e2 :: rest2)).1,
           (add now send s e).sent ++ (addAll now send (add now send s e).state (e2 :: rest2)).2) := rfl
      rw [step, hadd]
      dsimp only
      rw [ihs]
      simp [List.append_assoc]

/-- Claim C1: from a freshly constructed transport with `batch_size` n ≥ 1,
a sequence of `add` calls performs no network send while the buffer length
stays strictly below n; the `add` call that brings the buffer length to n
triggers exactly one send of all buffered entries, and when that send
succeeds the buffer is left empty and `consecutive_failures` is 0. -/
theorem add_threshold_behavior {α : Type} (n : Nat) (hn : 1 ≤ n)
    (entries : List α) (now : Nat) (send : List α → SendResult) :
    (entries.length < n →
      addAll now send (initTransport α n) entries =
        ({ buffer := entries, batch_size := n, consecutive_failures := 0,
           circuit_breaker_until := none }, [])) ∧
    (entries.length = n → send entries = .success →
      addAll now send (initTransport α n) entries =
        ({ buffer := [], batch_size := n, consecutive_failures := 0,
           circuit_breaker_until := none }, [entries])) := by
  constructor
  · intro hlt
    have h := addAll_below_threshold now send entries (initTransport α n)
      (by simpa [initTransport] using hlt)
    simpa [initTransport] using h
  · intro hlen hsend
    have hne : entries ≠ [] := by
      intro he
      subst he
      simp at hlen
      omega
    have h := addAll_hits_threshold now send entries (initTransport α n) hne rfl
      (by simpa [initTransport] using hlen)
      (by simpa [initTransport] using hsend)
    simpa [initTransport] using h

/-- Claim C1 witness: with `batch_size` 2, one `add` buffers without
sending; the second `add` sends the whole batch once and, on success,
leaves the buffer empty with `consecutive_failures` 0. -/
theorem add_threshold_behavior_witness :
    addAll 0 sendAlwaysOk (initTransport Nat 2) [5] =
      ({ buffer := [5], batch_size := 2, consecutive_failures := 0,
         circuit_breaker_until := none }, []) ∧
    addAll 0 sendAlwaysOk (initTransport Nat 2) [5, 6] =
      ({ buffer := [], batch_size := 2, consecutive_failures := 0,
         circuit_breaker_until := none }, [[5, 6]]) :=
  ⟨(add_threshold_behavior 2 (by decide) [5] 0 sendAlwaysOk).1 (by decide),
   (add_threshold_behavior 2 (by decide) [5, 6] 0 sendAlwaysOk).2 (by decide) rfl⟩

/-- Claim C2: a `flush` whose send attempt fails re-queues the failed batch
by prepending it ahead of entries added after the snapshot, and increments
`consecutive_failures` by exactly 1 (the failure is absorbed inside `flush`
and never propagated). -/
theorem flush_failure_requeues {α : Type} (s : TransportState α) (now : Nat)
    (send : List α → SendResult) (addedDuring : List α)
    (hne : s.buffer ≠ []) (hcb : breakerOpen s now = false)
    (hfail : send s.buffer = .failure) :
    (flush now send addedDuring s).state.buffer = s.buffer ++ addedDuring ∧
    (flush now send addedDuring s).state.consecutive_failures =
      s.consecutive_failures + 1 := by
  have hie : s.buffer.isEmpty = false := by simpa [List.isEmpty_iff] using hne
  simp [flush, hie, hcb, hfail]

/-- Claim C2 witness: a failing flush of buffer `[7]` with `[9]` added
during the send leaves buffer `[7, 9]` and failure counter 1. -/
theorem flush_failure_requeues_witness :
    (flush 0 sendAlwaysFail [9] (⟨[7], 50, 0, none⟩ : TransportState Nat)).state.buffer
      = [7] ++ [9] ∧
    (flush 0 sendAlwaysFail [9] (⟨[7], 50, 0, none⟩ : TransportState Nat)).state.consecutive_failures
      = 0 + 1 :=
  flush_failure_requeues ⟨[7], 50, 0, none⟩ 0 sendAlwaysFail [9] (by decide) rfl rfl

/-- Claim C3: when `consecutive_failures` reaches 5 on a failed send,
`circuit_breaker_until` is set strictly in the future; and every `flush`
invoked while the current time is before `circuit_breaker_until` performs
no network send and leaves the transport state unchanged. -/
theorem circuit_breaker_behavior {α : Type} (s1 s2 : TransportState α)
    (now1 now2 t : Nat) (send1 send2 : List α → SendResult)
    (added1 added2 : List α) :
    (s1.buffer ≠ [] → breakerOpen s1 now1 = false →
      send1 s1.buffer = .failure → s1.consecutive_failures = 4 →
      (flush now1 send1 added1 s1).state.circuit_breaker_until =
        some (now1 + backoff_seconds) ∧ now1 < now1 + backoff_seconds) ∧
    (s2.circuit_breaker_until = some t → now2 < t →
      flush now2 send2 added2 s2 = ⟨s2, []⟩) := by
  constructor
  · intro hne hcb hfail hcf
    have hie : s1.buffer.isEmpty = false := by simpa [List.isEmpty_iff] using hne
    refine ⟨?_, by simp [backoff_seconds]⟩
    simp [flush, hie, hcb, hfail, hcf]
  · intro hcbu hnow
    by_cases hie : s2.buffer.isEmpty = true
    · simp [flush, hie]
    · have hopen : breakerOpen s2 now2 = true := by
        simp [breakerOpen, hcbu, hnow]
      simp [flush, hie, hopen]

/-- Claim C3 witness: a fifth consecutive failure at time 100 opens the
breaker until 160; a flush at time 3 against a breaker open until 10 is a
complete no-op. -/
theorem circuit_breaker_behavior_witness :
    ((flush 100 sendAlwaysFail [] (⟨[7], 50, 4, none⟩ : TransportState Nat)).state.circuit_breaker_until
        = some (100 + backoff_seconds) ∧ 100 < 100 + backoff_seconds) ∧
    flush 3 sendAlwaysFail [] (⟨[7], 50, 5, some 10⟩ : TransportState Nat) =
      ⟨⟨[7], 50, 5, some 10⟩, []⟩ :=
  ⟨(circuit_breaker_behavior ⟨[7], 50, 4, none⟩ ⟨[7], 50, 5, some 10⟩ 100 3 10
      sendAlwaysFail sendAlwaysFail [] []).1 (by decide) rfl rfl rfl,
   (circuit_breaker_behavior ⟨[7], 50, 4, none⟩ ⟨[7], 50, 5, some 10⟩ 100 3 10
      sendAlwaysFail sendAlwaysFail [] []).2 rfl (by decide)⟩

/-- Claim C4: a single `flush` call with a non-empty buffer and a closed
circuit breaker attempts the network send exactly once — the list of send
attempts of the call is exactly one batch, the whole buffer — whatever the
send outcome; retries happen only through a later flush after re-queuing. -/
theorem flush_single_send_attempt {α : Type} (s : TransportState α)
    (now : Nat) (send : List α → SendResult) (addedDuring : List α)
    (hne : s.buffer ≠ []) (hcb : breakerOpen s now = false) :
    (flush now send addedDuring s).sent = [s.buffer] := by
  have hie : s.buffer.isEmpty = false := by simpa [List.isEmpty_iff] using hne
  cases hres : send s.buffer with
  | success => simp [flush, hie, hcb, hres]
  | failure => simp [flush, hie, hcb, hres]

/-- Claim C4 witness: one flush of buffer `[7]` with a failing endpoint
performs exactly one send attempt, of the whole buffer. -/
theorem flush_single_send_attempt_witness :
    (flush 0 sendAlwaysFail [] (⟨[7], 50, 0, none⟩ : TransportState Nat)).sent = [[7]] :=
  flush_single_send_attempt ⟨[7], 50, 0, none⟩ 0 sendAlwaysFail [] (by decide) rfl

/-- Claim C9: a captured request or response body whose byte length exceeds
`_BODY_LIMIT` (16384) is dropped entirely — the body field of the logged
entry is null, never a truncated prefix — while the size field still
records the full byte length. -/
theorem oversize_body_dropped (parse : String → Option JsonValue)
    (decode : List Nat → String) (protocol : Option String) (method : String)
    (path : List Char) (bytes : List Nat) (chunks : List (List Nat))
    (hm : method ∈ bodyCaptureMethods)
    (hreq : _BODY_LIMIT < bytes.length)
    (hresp : _BODY_LIMIT < chunks.flatten.length) :
    (dispatchLogEntry parse decode protocol method path (.ok bytes) (.ok chunks)).request_body = none ∧
    (dispatchLogEntry parse decode protocol method path (.ok bytes) (.ok chunks)).request_body_size = bytes.length ∧
    (dispatchLogEntry parse decode protocol method path (.ok bytes) (.ok chunks)).response_body = none ∧
    (dispatchLogEntry parse decode protocol method path (.ok bytes) (.ok chunks)).response_body_size = chunks.flatten.length := by
  have h1 : ¬ (bytes.length ≤ _BODY_LIMIT) := by omega
  have h2 : ¬ (chunks.flatten.length ≤ _BODY_LIMIT) := by omega
  have h2m : ¬ ((chunks.map List.length).sum ≤ _BODY_LIMIT) := by
    rw [← List.length_flatten]
    exact h2
  simp [dispatchLogEntry, captureRequestBody, captureResponseBody, hm, h1, h2, h2m]

/-- Claim C9 witness: a 16385-byte request body and a 16385-byte streamed
response body are both dropped while their sizes are recorded in full. -/
theorem oversize_body_dropped_witness :
    (dispatchLogEntry parseNone decodeConst none "POST" []
        (.ok (List.replicate 16385 0)) (.ok [List.replicate 16385 0])).request_body = none ∧
    (dispatchLogEntry parseNone decodeConst none "POST" []
        (.ok (List.replicate 16385 0)) (.ok [List.replicate 16385 0])).request_body_size
      = (List.replicate 16385 (0 : Nat)).length ∧
    (dispatchLogEntry parseNone decodeConst none "POST" []
        (.ok (List.replicate 16385 0)) (.ok [List.replicate 16385 0])).response_body = none ∧
    (dispatchLogEntry parseNone decodeConst none "POST" []
        (.ok (List.replicate 16385 0)) (.ok [List.replicate 16385 0])).response_body_size
      = ([List.replicate 16385 (0 : Nat)] : List (List Nat)).flatten.length :=
  oversize_body_dropped parseNone decodeConst none "POST" []
    (List.replicate 16385 0) [List.replicate 16385 0]
    (by decide)
    (by rw [List.length_replicate]; decide)
    (by simp only [List.flatten_cons, List.flatten_nil, List.append_nil,
          List.length_replicate]; decide)

/-- Claim C10: `dispatch` captures the request body only for POST, PUT, or
PATCH; for every other method the logged entry has a null request body and
request body size 0, so MCP and A2A extraction on such requests operates on
a null body. -/
theorem non_write_method_no_body_capture (parse : String → Option JsonValue)
    (decode : List Nat → String) (protocol : Option String) (method : String)
    (path : List Char) (bodyResult : Except Unit (List Nat))
    (chunksResult : Except Unit (List (List Nat)))
    (hm : method ∉ bodyCaptureMethods) :
    (dispatchLogEntry parse decode protocol method path bodyResult chunksResult).request_body = none ∧
    (dispatchLogEntry parse decode protocol method path bodyResult chunksResult).request_body_size = 0 ∧
    (dispatchLogEntry parse decode protocol method path bodyResult chunksResult).tool_name =
      dispatchToolName parse protocol none path := by
  simp [dispatchLogEntry, captureRequestBody, hm]

/-- Claim C10 witness: a GET request captures no body and its tool name is
computed from a null body. -/
theorem non_write_method_no_body_capture_witness :
    (dispatchLogEntry parseNone decodeConst (some "mcp") "GET" []
        (.ok [1, 2, 3]) (.ok [])).request_body = none ∧
    (dispatchLogEntry parseNone decodeConst (some "mcp") "GET" []
        (.ok [1, 2, 3]) (.ok [])).request_body_size = 0 ∧
    (dispatchLogEntry parseNone decodeConst (some "mcp") "GET" []
        (.ok [1, 2, 3]) (.ok [])).tool_name =
      dispatchToolName parseNone (some "mcp") none [] :=
  non_write_method_no_body_capture parseNone decodeConst (some "mcp") "GET" []
    (.ok [1, 2, 3]) (.ok []) (by decide)
